import Mathlib

/-! Shallow embedding of the temporal harvesting and lookup engine of
windserver (src/app.js).  Points in time are integers counting minutes of
UTC; one grid interval is 6 hours = 360 minutes and one day is 1440
minutes.  Pure functions of the source are translated directly; the
recursive callback walks are translated as fuel-indexed recursive
functions so that every definition is executable, and the artifact store
and the external collaborators (HTTP retrieval, grib2json conversion) are
explicit parameters. -/

namespace Windserver

/-- moment diff in whole days, truncated toward zero, as moment.js
computes a.diff(b, "days"). -/
def diffDays (a b : Int) : Int :=
  if 0 ≤ a - b then ((a - b).toNat / 1440 : Nat)
  else -(((b - a).toNat / 1440 : Nat))

/-- Math.abs(moment.utc(time).diff(targetMoment, "days")) in app.js.
Because the quotient is truncated toward zero, its absolute value equals
the floor of the absolute difference divided by a day. -/
def absDiffDays (a b : Int) : Nat := (a - b).natAbs / 1440

/-- The UTC hour of a point in time, moment(t).hour(). -/
def hourOf (t : Int) : Nat := (t % 1440).toNat / 60

/-- The UTC date part of a point in time; moment(t).format("YYYYMMDD")
identified with the day number. -/
def dayOf (t : Int) : Int := t / 1440

/-- roundHours from app.js: round the hour down to the interval and
zero-pad to two digits; the source returns undefined when the interval is
not positive, rendered here as none. -/
def roundHours (hours interval : Nat) : Option String :=
  if 0 < interval then
    some (if hours / interval * interval < 10
      then "0" ++ toString (hours / interval * interval)
      else toString (hours / interval * interval))
  else none

/-- A canonical grid stamp: the date part together with the zero-padded
rounded hour component, as app.js concatenates them into YYYYMMDDHH. -/
structure Stamp where
  day : Int
  hour : String
  deriving DecidableEq

/-- The stamp of a point in time, as built at every call site in app.js:
moment(t).format("YYYYMMDD") + roundHours(moment(t).hour(), 6). -/
def stampOf (t : Int) : Stamp :=
  { day := dayOf t, hour := (roundHours (hourOf t) 6).getD "undefined" }

/-- The point in time denoted by the stamp of t: date part plus the
rounded hour. -/
def gridTime (t : Int) : Int :=
  dayOf t * 1440 + ((hourOf t / 6 * 6 : Nat) : Int) * 60

theorem hourOf_lt_24 (t : Int) : hourOf t < 24 := by
  unfold hourOf
  omega

/-- The four hour components the 6-hour grid can produce. -/
def hourStr : Nat → String
  | 0 => "00"
  | 1 => "06"
  | 2 => "12"
  | _ => "18"

theorem roundHours_eq_hourStr :
    ∀ n : Nat, n < 24 → (roundHours n 6).getD "undefined" = hourStr (n / 6) := by
  decide

theorem stamp_hour (t : Int) : (stampOf t).hour = hourStr (hourOf t / 6) :=
  roundHours_eq_hourStr (hourOf t) (hourOf_lt_24 t)

theorem stampOf_eq_mk (t : Int) :
    stampOf t = { day := dayOf t, hour := hourStr (hourOf t / 6) } := by
  unfold stampOf
  rw [roundHours_eq_hourStr (hourOf t) (hourOf_lt_24 t)]

theorem hourStr_inj :
    ∀ a : Nat, a < 4 → ∀ b : Nat, b < 4 → hourStr a = hourStr b → a = b := by
  decide

theorem ediv360_decomp (t : Int) :
    t / 360 = t / 1440 * 4 + (hourOf t / 6 : Nat) := by
  unfold hourOf
  omega

/-- Two points in time have the same stamp exactly when they lie in the
same 6-hour grid cell. -/
theorem stampOf_eq_iff (t u : Int) :
    stampOf t = stampOf u ↔ t / 360 = u / 360 := by
  constructor
  · intro h
    have hd : dayOf t = dayOf u := congrArg Stamp.day h
    have hh : hourStr (hourOf t / 6) = hourStr (hourOf u / 6) := by
      rw [← stamp_hour, ← stamp_hour, h]
    have h4t : hourOf t / 6 < 4 := by have := hourOf_lt_24 t; omega
    have h4u : hourOf u / 6 < 4 := by have := hourOf_lt_24 u; omega
    have heq := hourStr_inj _ h4t _ h4u hh
    have d1 := ediv360_decomp t
    have d2 := ediv360_decomp u
    unfold dayOf at hd
    omega
  · intro h
    have d1 := ediv360_decomp t
    have d2 := ediv360_decomp u
    have h4t : hourOf t / 6 < 4 := by have := hourOf_lt_24 t; omega
    have h4u : hourOf u / 6 < 4 := by have := hourOf_lt_24 u; omega
    have hd : dayOf t = dayOf u := by unfold dayOf; omega
    have hh : hourOf t / 6 = hourOf u / 6 := by omega
    rw [stampOf_eq_mk, stampOf_eq_mk, hd, hh]

theorem gridTime_eq (t : Int) : gridTime t = 360 * (t / 360) := by
  have h := ediv360_decomp t
  unfold gridTime dayOf
  omega

/-- Claim C9: for every valid time the hour component of its stamp is one
of the zero-padded values 00, 06, 12 or 18, and taking stamps is
idempotent: the stamp of the grid point denoted by a stamp is that stamp
again, and the grid projection is itself idempotent. -/
theorem claim_C9_stamp_grid (t : Int) :
    ((stampOf t).hour = "00" ∨ (stampOf t).hour = "06" ∨
      (stampOf t).hour = "12" ∨ (stampOf t).hour = "18") ∧
    stampOf (gridTime t) = stampOf t ∧ gridTime (gridTime t) = gridTime t := by
  refine ⟨?_, ?_, ?_⟩
  · rw [stamp_hour]
    have h4 : hourOf t / 6 = 0 ∨ hourOf t / 6 = 1 ∨ hourOf t / 6 = 2 ∨
        hourOf t / 6 = 3 := by
      have := hourOf_lt_24 t
      omega
    rcases h4 with h | h | h | h <;> rw [h] <;> simp [hourStr]
  · rw [stampOf_eq_iff, gridTime_eq]
    omega
  · rw [gridTime_eq (gridTime t), gridTime_eq t]
    omega

/-! ## Lookup resolver: GET /latest and GET /nearest -/

/-- Outcome of the sendLatest walk: the artifact that res.sendFile
streamed, the error handed to next(err) past the horizon, or fuel
exhaustion of the embedding. -/
inductive LatestOut where
  | sent (s : Stamp)
  | failed
  | fuelOut
  deriving DecidableEq

/-- sendLatest from app.js (GET /latest): try to send the artifact of the
stamp of the cursor; on failure hand the error on when the cursor is
before now minus 30 days, otherwise retry one interval earlier.  The
store existence check ex stands for the success of res.sendFile. -/
def sendLatest (ex : Stamp → Bool) (now : Int) : Nat → Int → LatestOut
  | 0, _ => .fuelOut
  | fuel + 1, t =>
    if ex (stampOf t) then .sent (stampOf t)
    else if t < now - 30 * 1440 then .failed
    else sendLatest ex now fuel (t - 360)

theorem sendLatest_succ (ex : Stamp → Bool) (now : Int) (fuel : Nat) (t : Int) :
    sendLatest ex now (fuel + 1) t =
      if ex (stampOf t) then .sent (stampOf t)
      else if t < now - 30 * 1440 then .failed
      else sendLatest ex now fuel (t - 360) := rfl

/-- The searchLimit guard of sendNearestTo.  A supplied query value is
truthy in the source even when it is 0, so the guard fires exactly when a
limit was supplied and the whole-day distance from the query time has
reached it. -/
def limitHit (limit : Option Nat) (time t : Int) : Bool :=
  match limit with
  | some l => decide (l ≤ absDiffDays time t)
  | none => false

/-- Outcome of the sendNearestTo walk: an artifact was streamed, or the
walk raised the error Error("No data within searchLimit"). -/
inductive NearOutcome where
  | found (s : Stamp)
  | errLimit
  deriving DecidableEq

/-- sendNearestTo from app.js (GET /nearest), fuel-indexed because the
source recursion has no termination guarantee of its own.  none stands
for running out of fuel with no outcome.  When the guard fires and the
walk is still backward, the source adds limit days to the current cursor
(not to the original target) and continues forward. -/
def sendNearestTo (ex : Stamp → Bool) (limit : Option Nat) (time : Int) :
    Nat → Int → Bool → Option NearOutcome
  | 0, _, _ => none
  | fuel + 1, t, fwd =>
    if limitHit limit time t then
      if fwd then some .errLimit
      else sendNearestTo ex limit time fuel (t + (limit.getD 0) * 1440) true
    else if ex (stampOf t) then some (.found (stampOf t))
    else sendNearestTo ex limit time fuel (if fwd then t + 360 else t - 360) fwd

theorem sendNearestTo_succ (ex : Stamp → Bool) (limit : Option Nat) (time : Int)
    (fuel : Nat) (t : Int) (fwd : Bool) :
    sendNearestTo ex limit time (fuel + 1) t fwd =
      if limitHit limit time t then
        if fwd then some .errLimit
        else sendNearestTo ex limit time fuel (t + (limit.getD 0) * 1440) true
      else if ex (stampOf t) then some (.found (stampOf t))
      else sendNearestTo ex limit time fuel (if fwd then t + 360 else t - 360) fwd := rfl

theorem limitHit_none (time t : Int) : limitHit none time t = false := rfl

theorem limitHit_some (l : Nat) (time t : Int) :
    limitHit (some l) time t = decide (l ≤ absDiffDays time t) := rfl

theorem absDiffDays_back (time : Int) (k : Nat) :
    absDiffDays time (time - 360 * k) = k / 4 := by
  unfold absDiffDays
  have h : time - (time - 360 * (k : Int)) = ((360 * k : Nat) : Int) := by
    push_cast
    ring
  rw [h, Int.natAbs_ofNat]
  omega

theorem absDiffDays_fwd (time : Int) (k : Nat) :
    absDiffDays time (time + 360 * k) = k / 4 := by
  unfold absDiffDays
  have h : time - (time + 360 * (k : Int)) = -((360 * k : Nat) : Int) := by
    push_cast
    ring
  rw [h, Int.natAbs_neg, Int.natAbs_ofNat]
  omega

/-- The backward phase of the limited nearest walk: with no artifact on
the remaining backward positions, the walk reaches whole-day distance
equal to the limit after exactly 4*limit intervals, switches direction
once, and continues as the forward walk started at the original target
time. -/
theorem nearest_back_phase (ex : Stamp → Bool) (l : Nat) (time : Int) :
    ∀ n fb, n ≤ 4 * l →
      (∀ i : Nat, 4 * l - n ≤ i → i < 4 * l → ex (stampOf (time - 360 * i)) = false) →
      sendNearestTo ex (some l) time (fb + n + 1)
          (time - 360 * ((4 * l - n : Nat) : Int)) false =
        sendNearestTo ex (some l) time fb time true := by
  intro n
  induction n with
  | zero =>
    intro fb _ _
    have hhit : limitHit (some l) time (time - 360 * ((4 * l - 0 : Nat) : Int)) = true := by
      rw [Nat.sub_zero, limitHit_some, absDiffDays_back]
      simp only [decide_eq_true_eq]
      omega
    rw [sendNearestTo_succ, hhit]
    simp only [if_true, Bool.false_eq_true, if_false]
    have hp : time - 360 * ((4 * l - 0 : Nat) : Int) + (some l).getD 0 * 1440 = time := by
      simp only [Option.getD_some, Nat.sub_zero]
      push_cast
      ring
    rw [hp]
  | succ n ih =>
    intro fb hn h
    have hl : ¬ (l ≤ (4 * l - (n + 1)) / 4) := by omega
    have hhit : limitHit (some l) time (time - 360 * ((4 * l - (n + 1) : Nat) : Int)) = false := by
      rw [limitHit_some, absDiffDays_back]
      simp only [decide_eq_false_iff_not]
      exact hl
    have hex : ex (stampOf (time - 360 * ((4 * l - (n + 1) : Nat) : Int))) = false :=
      h (4 * l - (n + 1)) (Nat.le_refl _) (by omega)
    rw [sendNearestTo_succ, hhit, hex]
    simp only [Bool.false_eq_true, if_false]
    have hp : time - 360 * ((4 * l - (n + 1) : Nat) : Int) - 360
        = time - 360 * ((4 * l - n : Nat) : Int) := by
      omega
    rw [hp]
    exact ih fb (by omega) (fun i h1 h2 => h i (by omega) h2)

/-- The forward phase of the limited nearest walk, failing: with no
artifact on the remaining forward positions, the walk reaches whole-day
distance equal to the limit after 4*limit intervals forward of the target
and raises the searchLimit error. -/
theorem nearest_fwd_err (ex : Stamp → Bool) (l : Nat) (time : Int) :
    ∀ n extra, n ≤ 4 * l →
      (∀ j : Nat, 4 * l - n ≤ j → j < 4 * l → ex (stampOf (time + 360 * j)) = false) →
      sendNearestTo ex (some l) time (extra + n + 1)
          (time + 360 * ((4 * l - n : Nat) : Int)) true =
        some .errLimit := by
  intro n
  induction n with
  | zero =>
    intro extra _ _
    have hhit : limitHit (some l) time (time + 360 * ((4 * l - 0 : Nat) : Int)) = true := by
      rw [Nat.sub_zero, limitHit_some, absDiffDays_fwd]
      simp only [decide_eq_true_eq]
      omega
    rw [sendNearestTo_succ, hhit]
    simp only [if_true]
  | succ n ih =>
    intro extra hn h
    have hhit : limitHit (some l) time (time + 360 * ((4 * l - (n + 1) : Nat) : Int)) = false := by
      rw [limitHit_some, absDiffDays_fwd]
      simp only [decide_eq_false_iff_not]
      omega
    have hex : ex (stampOf (time + 360 * ((4 * l - (n + 1) : Nat) : Int))) = false :=
      h (4 * l - (n + 1)) (Nat.le_refl _) (by omega)
    rw [sendNearestTo_succ, hhit, hex]
    simp only [Bool.false_eq_true, if_false, if_true]
    have hp : time + 360 * ((4 * l - (n + 1) : Nat) : Int) + 360
        = time + 360 * ((4 * l - n : Nat) : Int) := by
      omega
    rw [hp]
    exact ih extra (by omega) (fun j h1 h2 => h j (by omega) h2)

/-- The forward phase of the limited nearest walk, succeeding: the first
existing stamp strictly inside the limit, forward of the target, is
found and returned. -/
theorem nearest_fwd_found (ex : Stamp → Bool) (l : Nat) (time : Int) (j0 : Nat)
    (hj0 : j0 < 4 * l) (hex0 : ex (stampOf (time + 360 * j0)) = true) :
    ∀ n extra, n ≤ j0 →
      (∀ j : Nat, j0 - n ≤ j → j < j0 → ex (stampOf (time + 360 * j)) = false) →
      sendNearestTo ex (some l) time (extra + n + 1)
          (time + 360 * ((j0 - n : Nat) : Int)) true =
        some (.found (stampOf (time + 360 * j0))) := by
  intro n
  induction n with
  | zero =>
    intro extra _ _
    have hhit : limitHit (some l) time (time + 360 * ((j0 - 0 : Nat) : Int)) = false := by
      rw [Nat.sub_zero, limitHit_some, absDiffDays_fwd]
      simp only [decide_eq_false_iff_not]
      omega
    rw [sendNearestTo_succ, hhit]
    simp only [Bool.false_eq_true, if_false]
    rw [Nat.sub_zero] at *
    rw [hex0]
    simp only [if_true]
  | succ n ih =>
    intro extra hn h
    have hhit : limitHit (some l) time (time + 360 * ((j0 - (n + 1) : Nat) : Int)) = false := by
      rw [limitHit_some, absDiffDays_fwd]
      simp only [decide_eq_false_iff_not]
      omega
    have hex : ex (stampOf (time + 360 * ((j0 - (n + 1) : Nat) : Int))) = false :=
      h (j0 - (n + 1)) (Nat.le_refl _) (by omega)
    rw [sendNearestTo_succ, hhit, hex]
    simp only [Bool.false_eq_true, if_false, if_true]
    have hp : time + 360 * ((j0 - (n + 1) : Nat) : Int) + 360
        = time + 360 * ((j0 - n : Nat) : Int) := by
      omega
    rw [hp]
    exact ih extra (by omega) (fun j h1 h2 => h j (by omega) h2)

/-- A store in which no artifact exists. -/
def exNever : Stamp → Bool := fun _ => false

/-- A store holding exactly the artifact of the stamp of u. -/
def exOnlyAt (u : Int) : Stamp → Bool := fun s => decide (s = stampOf u)

/-- Modelled from the claim wording (spec section 4.4): the nearest walk
as claim C1 describes it, identical to the source walk except that after
the single direction switch it restarts forward from stampOf(target) plus
limit days, that is from the grid time of the target plus the limit. -/
def specResolveNearest (ex : Stamp → Bool) (l : Nat) (time : Int) :
    Nat → Int → Bool → Option NearOutcome
  | 0, _, _ => none
  | fuel + 1, t, fwd =>
    if l ≤ absDiffDays time t then
      if fwd then some .errLimit
      else specResolveNearest ex l time fuel (gridTime time + l * 1440) true
    else if ex (stampOf t) then some (.found (stampOf t))
    else specResolveNearest ex l time fuel (if fwd then t + 360 else t - 360) fwd

/-- Claim C1 counterexample.  Target time 144000 (grid-aligned), limit 1
day, and the only artifact one interval forward of the target.  The
source walk finds that artifact during its forward phase, because the
switch adds the limit back onto a cursor that has already walked limit
days backward, restarting from the original target; under the walk the
claim describes, which restarts from stampOf(target) + limit, the
distance bound is already reached at the restart point, the artifact
between target and target + limit is never examined, and the outcome is
the searchLimit error.  The two disagree, so the claim mis-states the
restart point of the forward walk. -/
theorem claim_C1_counterexample :
    sendNearestTo (exOnlyAt 144360) (some 1) 144000 20 144000 false =
      some (.found (stampOf 144360)) ∧
    specResolveNearest (exOnlyAt 144360) 1 144000 20 144000 false =
      some .errLimit := by
  constructor
  · rfl
  · rfl

/-- Claim C1 (amended): for every nearest query with a set limit, when the
backward walk reaches whole-day distance at least the limit (after
exactly 4*limit intervals) without finding an artifact, the resolver
switches direction exactly once and restarts the walk forward from the
original target time (the switch adds limit days to the cursor that has
already walked limit days backward), stepping forward one interval at a
time; the first artifact strictly inside the forward limit is returned,
and if the forward walk also reaches distance at least the limit without
finding an existing stamp it raises the No data within searchLimit
error. -/
theorem claim_C1_limit_walk :
    (∀ (ex : Stamp → Bool) (l : Nat) (time : Int) (extra : Nat),
      (∀ i : Nat, i < 4 * l → ex (stampOf (time - 360 * i)) = false) →
      (∀ j : Nat, j < 4 * l → ex (stampOf (time + 360 * j)) = false) →
      sendNearestTo ex (some l) time (extra + (8 * l + 2)) time false =
        some .errLimit) ∧
    (∀ (ex : Stamp → Bool) (l : Nat) (time : Int) (extra j0 : Nat),
      (∀ i : Nat, i < 4 * l → ex (stampOf (time - 360 * i)) = false) →
      j0 < 4 * l → ex (stampOf (time + 360 * j0)) = true →
      (∀ j : Nat, j < j0 → ex (stampOf (time + 360 * j)) = false) →
      sendNearestTo ex (some l) time (extra + (4 * l + j0 + 2)) time false =
        some (.found (stampOf (time + 360 * j0)))) := by
  constructor
  · intro ex l time extra hb hf
    have h1 := nearest_back_phase ex l time (4 * l) (extra + 4 * l + 1)
      (Nat.le_refl _) (fun i _ h2 => hb i h2)
    have h2 := nearest_fwd_err ex l time (4 * l) extra
      (Nat.le_refl _) (fun j _ h2 => hf j h2)
    simp only [Nat.sub_self, Nat.cast_zero, mul_zero, sub_zero, add_zero] at h1 h2
    have hfuel : extra + (8 * l + 2) = extra + 4 * l + 1 + 4 * l + 1 := by omega
    rw [hfuel]
    exact h1.trans h2
  · intro ex l time extra j0 hb hj0 hex0 hf
    have h1 := nearest_back_phase ex l time (4 * l) (extra + j0 + 1)
      (Nat.le_refl _) (fun i _ h2 => hb i h2)
    have h2 := nearest_fwd_found ex l time j0 hj0 hex0 j0 extra
      (Nat.le_refl _) (fun j _ h2 => hf j h2)
    simp only [Nat.sub_self, Nat.cast_zero, mul_zero, sub_zero, add_zero] at h1 h2
    have hfuel : extra + (4 * l + j0 + 2) = extra + j0 + 1 + 4 * l + 1 := by omega
    rw [hfuel]
    exact h1.trans h2

/-- Witness for claim C1: both parts applied at concrete inputs; the
exhausted case with an empty store and limit 1, the forward-found case
with the single artifact one interval forward of the target. -/
theorem claim_C1_witness :
    sendNearestTo exNever (some 1) 144000 (0 + (8 * 1 + 2)) 144000 false =
      some .errLimit ∧
    sendNearestTo (exOnlyAt 144360) (some 1) 144000 (0 + (4 * 1 + 1 + 2)) 144000 false =
      some (.found (stampOf (144000 + 360 * (1 : Nat)))) := by
  constructor
  · exact claim_C1_limit_walk.1 exNever 1 144000 0 (fun i _ => rfl) (fun j _ => rfl)
  · exact claim_C1_limit_walk.2 (exOnlyAt 144360) 1 144000 0 1
      (by decide) (by decide) (by decide) (by decide)

/-- The unlimited nearest walk never terminates while no artifact exists
on the positions it visits: whatever the fuel, no outcome is produced. -/
theorem nearest_noLimit_none (ex : Stamp → Bool) (time : Int) :
    ∀ fuel j : Nat,
      (∀ k : Nat, k < fuel → ex (stampOf (time - 360 * (j + k : Nat))) = false) →
      sendNearestTo ex none time fuel (time - 360 * (j : Nat)) false = none := by
  intro fuel
  induction fuel with
  | zero => intro j h; rfl
  | succ fuel ih =>
    intro j h
    rw [sendNearestTo_succ, limitHit_none]
    simp only [Bool.false_eq_true, if_false]
    have hex : ex (stampOf (time - 360 * (j : Nat))) = false := by
      have h0 := h 0 (Nat.succ_pos _)
      simpa using h0
    rw [hex]
    simp only [Bool.false_eq_true, if_false]
    have hp : time - 360 * ((j : Nat) : Int) - 360
        = time - 360 * ((j + 1 : Nat) : Int) := by omega
    rw [hp]
    refine ih (j + 1) (fun k hk => ?_)
    have hidx : j + 1 + k = j + (k + 1) := by omega
    rw [hidx]
    exact h (k + 1) (by omega)

/-- The unlimited nearest walk finds the first existing stamp at any
backward depth. -/
theorem nearest_noLimit_found (ex : Stamp → Bool) (time : Int) :
    ∀ k extra j : Nat,
      (∀ i : Nat, i < k → ex (stampOf (time - 360 * (j + i : Nat))) = false) →
      ex (stampOf (time - 360 * (j + k : Nat))) = true →
      sendNearestTo ex none time (extra + k + 1) (time - 360 * (j : Nat)) false =
        some (.found (stampOf (time - 360 * (j + k : Nat)))) := by
  intro k
  induction k with
  | zero =>
    intro extra j _ hk
    simp only [Nat.add_zero] at hk ⊢
    rw [sendNearestTo_succ, limitHit_none]
    simp only [Bool.false_eq_true, if_false]
    rw [hk]
    simp only [if_true]
  | succ k ih =>
    intro extra j h hk
    rw [sendNearestTo_succ, limitHit_none]
    simp only [Bool.false_eq_true, if_false]
    have hex : ex (stampOf (time - 360 * (j : Nat))) = false := by
      have h0 := h 0 (Nat.succ_pos _)
      simpa using h0
    rw [hex]
    simp only [Bool.false_eq_true, if_false]
    have hp : time - 360 * ((j : Nat) : Int) - 360
        = time - 360 * ((j + 1 : Nat) : Int) := by omega
    rw [hp]
    have hidx : j + 1 + k = j + (k + 1) := by omega
    have hres := ih extra (j + 1) (fun i hi => by
      have hidx2 : j + 1 + i = j + (i + 1) := by omega
      rw [hidx2]
      exact h (i + 1) (by omega)) (by rw [hidx]; exact hk)
    rw [hidx] at hres
    exact hres

set_option maxRecDepth 4000 in
/-- Claim C2 counterexample.  With no search limit and a store holding no
artifact at all, the backward walk is still running after 200 intervals,
well past the 121 backward steps that would exhaust a 30-day horizon of
6-hour intervals; no not-found outcome is ever produced, contradicting
the claim that the walk terminates within the harvest horizon.  The
source function sendNearestTo contains no horizon test at all. -/
theorem claim_C2_counterexample :
    sendNearestTo exNever none 144000 200 144000 false = none := by
  rfl

/-- Claim C2 (amended): for a nearest query with no search limit the
backward walk is bounded by nothing: while no artifact exists at the
visited stamps it recurses without bound, producing no outcome at any
recursion depth, and it terminates exactly when it reaches the first
existing stamp, which it returns. -/
theorem claim_C2_noLimit_walk :
    (∀ (ex : Stamp → Bool) (time : Int) (fuel : Nat),
      (∀ k : Nat, k < fuel → ex (stampOf (time - 360 * k)) = false) →
      sendNearestTo ex none time fuel time false = none) ∧
    (∀ (ex : Stamp → Bool) (time : Int) (extra k : Nat),
      (∀ j : Nat, j < k → ex (stampOf (time - 360 * j)) = false) →
      ex (stampOf (time - 360 * k)) = true →
      sendNearestTo ex none time (extra + k + 1) time false =
        some (.found (stampOf (time - 360 * k)))) := by
  constructor
  · intro ex time fuel h
    have h1 := nearest_noLimit_none ex time fuel 0 (fun k hk => by simpa using h k hk)
    simpa using h1
  · intro ex time extra k h hk
    have h1 := nearest_noLimit_found ex time k extra 0
      (fun i hi => by simpa using h i hi) (by simpa using hk)
    simpa using h1

/-- Witness for claim C2: the ever-running case on the empty store with
fuel 150, and the first-found case with the single artifact three
intervals back. -/
theorem claim_C2_witness :
    sendNearestTo exNever none 144000 150 144000 false = none ∧
    sendNearestTo (exOnlyAt 142920) none 144000 (0 + 3 + 1) 144000 false =
      some (.found (stampOf (144000 - 360 * (3 : Nat)))) := by
  constructor
  · exact claim_C2_noLimit_walk.1 exNever 144000 150 (fun k _ => rfl)
  · exact claim_C2_noLimit_walk.2 (exOnlyAt 142920) 144000 0 3 (by decide) (by decide)

/-- Claim C10: a nearest query with searchLimit 0 raises the No data
within searchLimit error whatever the store contents: the supplied value
0 is truthy as a query string, the whole-day distance 0 already reaches
the limit in the backward phase, the switch re-enters at the same cursor,
and the forward phase fails the same test at once, so no existence check
is ever performed.  The store parameter is universally quantified, so the
outcome is independent of every artifact, including one at the stamp of
the target itself. -/
theorem claim_C10_zero_limit (ex : Stamp → Bool) (time t : Int) (fuel : Nat) :
    sendNearestTo ex (some 0) time (fuel + 2) t false = some .errLimit := by
  have hz : ∀ x : Int, limitHit (some 0) time x = true := fun x => by
    rw [limitHit_some]
    simp
  rw [show fuel + 2 = (fuel + 1) + 1 by omega, sendNearestTo_succ, hz]
  simp only [if_true, Bool.false_eq_true, if_false]
  rw [sendNearestTo_succ, hz]
  simp only [if_true]

/-- The walk of the sendLatest resolver reaches the first existing stamp
within the horizon. -/
theorem latest_found_phase (ex : Stamp → Bool) (now : Int) :
    ∀ k extra j : Nat, j + k ≤ 121 →
      (∀ i : Nat, i < k → ex (stampOf (now - 360 * (j + i : Nat))) = false) →
      ex (stampOf (now - 360 * (j + k : Nat))) = true →
      sendLatest ex now (extra + k + 1) (now - 360 * (j : Nat)) =
        .sent (stampOf (now - 360 * (j + k : Nat))) := by
  intro k
  induction k with
  | zero =>
    intro extra j _ _ hk
    simp only [Nat.add_zero] at hk ⊢
    rw [sendLatest_succ, hk]
    simp only [if_true]
  | succ k ih =>
    intro extra j hb h hk
    rw [sendLatest_succ]
    have hex : ex (stampOf (now - 360 * (j : Nat))) = false := by
      have h0 := h 0 (Nat.succ_pos _)
      simpa using h0
    rw [hex]
    simp only [Bool.false_eq_true, if_false]
    have hguard : ¬ (now - 360 * ((j : Nat) : Int) < now - 30 * 1440) := by omega
    rw [if_neg hguard]
    have hp : now - 360 * ((j : Nat) : Int) - 360
        = now - 360 * ((j + 1 : Nat) : Int) := by omega
    rw [hp]
    have hidx : j + 1 + k = j + (k + 1) := by omega
    have hres := ih extra (j + 1) (by omega) (fun i hi => by
      have hidx2 : j + 1 + i = j + (i + 1) := by omega
      rw [hidx2]
      exact h (i + 1) (by omega)) (by rw [hidx]; exact hk)
    rw [hidx] at hres
    exact hres

/-- The walk of the sendLatest resolver fails once every stamp down to one
interval past the 30-day horizon is missing. -/
theorem latest_failed_phase (ex : Stamp → Bool) (now : Int)
    (hall : ∀ i : Nat, i ≤ 121 → ex (stampOf (now - 360 * i)) = false) :
    ∀ m extra : Nat, m ≤ 121 →
      sendLatest ex now (extra + m + 1) (now - 360 * ((121 - m : Nat) : Int)) =
        .failed := by
  intro m
  induction m with
  | zero =>
    intro extra _
    rw [sendLatest_succ, hall (121 - 0) (by omega)]
    simp only [Bool.false_eq_true, if_false]
    rw [if_pos (by omega : now - 360 * ((121 - 0 : Nat) : Int) < now - 30 * 1440)]
  | succ m ih =>
    intro extra hm
    rw [sendLatest_succ, hall (121 - (m + 1)) (by omega)]
    simp only [Bool.false_eq_true, if_false]
    have hguard : ¬ (now - 360 * ((121 - (m + 1) : Nat) : Int) < now - 30 * 1440) := by
      omega
    rw [if_neg hguard]
    have hp : now - 360 * ((121 - (m + 1) : Nat) : Int) - 360
        = now - 360 * ((121 - m : Nat) : Int) := by omega
    rw [hp]
    exact ih extra (by omega)

/-- Claim C6: the latest resolver starts at the stamp of now and steps
backward one interval at a time; the first stamp whose artifact exists is
returned, and when every stamp down to the walk position one interval
past the 30-day horizon is missing (indices 0 through 121) the walk hands
the not-found error on.  121 backward steps put the cursor before
now minus 30 days, so the fuel bound 122 plus slack shows termination
within the horizon. -/
theorem claim_C6_resolveLatest :
    (∀ (ex : Stamp → Bool) (now : Int) (extra k : Nat), k ≤ 121 →
      (∀ j : Nat, j < k → ex (stampOf (now - 360 * j)) = false) →
      ex (stampOf (now - 360 * k)) = true →
      sendLatest ex now (extra + k + 1) now = .sent (stampOf (now - 360 * k))) ∧
    (∀ (ex : Stamp → Bool) (now : Int) (extra : Nat),
      (∀ j : Nat, j ≤ 121 → ex (stampOf (now - 360 * j)) = false) →
      sendLatest ex now (extra + 122) now = .failed) := by
  constructor
  · intro ex now extra k hk hb hx
    have h1 := latest_found_phase ex now k extra 0 (by omega)
      (fun i hi => by simpa using hb i hi) (by simpa using hx)
    simpa using h1
  · intro ex now extra hall
    have h1 := latest_failed_phase ex now hall 121 extra (Nat.le_refl _)
    have hfuel : extra + 121 + 1 = extra + 122 := by omega
    rw [hfuel] at h1
    simpa using h1

/-- Witness for claim C6: the store with one artifact two intervals back
yields that artifact; the empty store yields the not-found error. -/
theorem claim_C6_witness :
    sendLatest (exOnlyAt 143280) 144000 (0 + 2 + 1) 144000 =
      .sent (stampOf (144000 - 360 * (2 : Nat))) ∧
    sendLatest exNever 144000 (0 + 122) 144000 = .failed := by
  constructor
  · exact claim_C6_resolveLatest.1 (exOnlyAt 143280) 144000 0 2
      (by decide) (by decide) (by decide)
  · exact claim_C6_resolveLatest.2 exNever 144000 0 (fun j _ => rfl)

/-- Response of the GET /nearest route: the Invalid params error handed
to next(), or the outcome of the walk. -/
inductive NearestResponse where
  | invalidParams
  | resolved (r : Option NearOutcome)
  deriving DecidableEq

/-- The GET /nearest route handler from app.js: the timeIso query value
must be present, non-empty (an empty string is falsy) and parse as a
valid time before sendNearestTo runs; otherwise the handler rejects with
Error("Invalid params, expecting: timeIso=ISO_TIME_STRING").  Parsing is
the external collaborator parse. -/
def nearestRoute (ex : Stamp → Bool) (parse : String → Option Int)
    (timeIso : Option String) (limit : Option Nat) (fuel : Nat) : NearestResponse :=
  match timeIso with
  | none => .invalidParams
  | some str =>
    if str.isEmpty then .invalidParams
    else
      match parse str with
      | none => .invalidParams
      | some t => .resolved (sendNearestTo ex limit t fuel t false)

/-- Claim C8: a nearest query whose timeIso is missing or fails to parse
is rejected with the Invalid params error.  The store check ex, the
limit and the fuel are universally quantified and the rejected result
does not depend on them, so the rejection happens before any grid walk
or store existence check; the handler reads no harvest state at all, so
the harvest state is unchanged. -/
theorem claim_C8_invalid_time :
    (∀ (ex : Stamp → Bool) (parse : String → Option Int) (limit : Option Nat)
      (fuel : Nat), nearestRoute ex parse none limit fuel = .invalidParams) ∧
    (∀ (ex : Stamp → Bool) (parse : String → Option Int) (str : String)
      (limit : Option Nat) (fuel : Nat), parse str = none →
      nearestRoute ex parse (some str) limit fuel = .invalidParams) := by
  constructor
  · intro ex parse limit fuel
    rfl
  · intro ex parse str limit fuel h
    simp [nearestRoute, h]

/-- A parser that accepts nothing. -/
def parseNone : String → Option Int := fun _ => none

/-- Witness for claim C8: both rejection paths at concrete inputs. -/
theorem claim_C8_witness :
    nearestRoute exNever parseNone none none 7 = .invalidParams ∧
    nearestRoute exNever parseNone (some "not-a-time") none 7 = .invalidParams := by
  constructor
  · exact claim_C8_invalid_time.1 exNever parseNone none 7
  · exact claim_C8_invalid_time.2 exNever parseNone "not-a-time" none 7 rfl

/-! ## Harvest engine: getGribData, convertGribToJson, run, retention -/

/-- Result of one retrieval collaborator call: a transport error (the
error event of request.get) or an HTTP status code. -/
inductive FetchOut where
  | transportErr
  | status (code : Nat)
  deriving DecidableEq

/-- A retrieval outcome on which the probe loop retries: transport error
or a non-200 status. -/
def fetchFails : FetchOut → Bool
  | .transportErr => true
  | .status code => code != 200

/-- Observable events of one harvest cycle, in order: the retention sweep
report, the data file count report, a retrieval request issued, a
retrieval error counted, a raw artifact written, an existing stamp
skipped, the horizon message, and the two conversion outcomes. -/
inductive Ev where
  | sweep (deleted : Nat)
  | count (total : Nat)
  | fetch (s : Stamp)
  | retrieveErr (s : Stamp)
  | writeRaw (s : Stamp)
  | skipExisting (s : Stamp)
  | horizon
  | convertOk (s : Stamp)
  | convertErr (s : Stamp)
  deriving DecidableEq

/-- The on-disk state: the json-data directory as a list of servable
stamps with their file modification times, and the grib-data directory as
a list of raw stamps. -/
structure HState where
  json : List (Stamp × Int)
  grib : List Stamp
  deriving DecidableEq

/-- checkPath("json-data/" + stamp + ".json", false): a servable artifact
exists for the stamp. -/
def jsonExists (st : HState) (s : Stamp) : Bool :=
  st.json.any (fun p => decide (p.1 = s))

/-- maxAge from app.js, 14 days; the source stores seconds, the embedding
minutes. -/
def maxAgeMin : Int := 60 * 24 * 14

/-- removeOldFiles from app.js: findRemoveSync deletes every json-data
file whose age exceeds maxAge and the counter is bumped by the number of
deleted files.  Returns the remaining state and the deleted count. -/
def removeOldFiles (now : Int) (st : HState) : HState × Nat :=
  (⟨st.json.filter (fun p => !decide (maxAgeMin < now - p.2)), st.grib⟩,
    (st.json.filter (fun p => decide (maxAgeMin < now - p.2))).length)

/-- countDataFiles from app.js: the gauge is set to the number of files in
the json-data directory. -/
def countDataFiles (st : HState) : Nat := st.json.length

/-- Outcome of the getGribData promise: resolved with a stamp and its
unrounded cursor time, resolved with stamp false because the artifact
already exists, never resolved because the horizon was exhausted, or
fuel exhaustion of the embedding. -/
inductive QOut where
  | resolved (s : Stamp) (t : Int)
  | skipped
  | horizon
  | fuelOut
  deriving DecidableEq

/-- runQuery inside getGribData from app.js: stop once the cursor is more
than 30 whole days before now; otherwise issue the retrieval call for the
stamp of the cursor; on a transport error or a non-200 status retry one
interval earlier; on 200 write the raw artifact and resolve, unless the
servable artifact already exists, in which case resolve with no stamp.
The source reads a fresh now at every probe; the embedding keeps now
fixed for the cycle. -/
def runQuery (now : Int) (fetch : Stamp → FetchOut) (st : HState) :
    Nat → Int → List Ev × QOut × HState
  | 0, _ => ([], .fuelOut, st)
  | fuel + 1, t =>
    if 30 < diffDays now t then ([.horizon], .horizon, st)
    else
      match fetch (stampOf t) with
      | .transportErr =>
        (Ev.fetch (stampOf t) :: Ev.retrieveErr (stampOf t) ::
            (runQuery now fetch st fuel (t - 360)).1,
          (runQuery now fetch st fuel (t - 360)).2)
      | .status code =>
        if code = 200 then
          if jsonExists st (stampOf t) then
            ([.fetch (stampOf t), .skipExisting (stampOf t)], .skipped, st)
          else
            ([.fetch (stampOf t), .writeRaw (stampOf t)],
              .resolved (stampOf t) t, ⟨st.json, stampOf t :: st.grib⟩)
        else
          (Ev.fetch (stampOf t) :: Ev.retrieveErr (stampOf t) ::
              (runQuery now fetch st fuel (t - 360)).1,
            (runQuery now fetch st fuel (t - 360)).2)

theorem runQuery_succ (now : Int) (fetch : Stamp → FetchOut) (st : HState)
    (fuel : Nat) (t : Int) :
    runQuery now fetch st (fuel + 1) t =
      if 30 < diffDays now t then ([.horizon], .horizon, st)
      else
        match fetch (stampOf t) with
        | .transportErr =>
          (Ev.fetch (stampOf t) :: Ev.retrieveErr (stampOf t) ::
              (runQuery now fetch st fuel (t - 360)).1,
            (runQuery now fetch st fuel (t - 360)).2)
        | .status code =>
          if code = 200 then
            if jsonExists st (stampOf t) then
              ([.fetch (stampOf t), .skipExisting (stampOf t)], .skipped, st)
            else
              ([.fetch (stampOf t), .writeRaw (stampOf t)],
                .resolved (stampOf t) t, ⟨st.json, stampOf t :: st.grib⟩)
          else
            (Ev.fetch (stampOf t) :: Ev.retrieveErr (stampOf t) ::
                (runQuery now fetch st fuel (t - 360)).1,
              (runQuery now fetch st fuel (t - 360)).2) := rfl

/-- run from app.js, one harvest cycle: sweep old files, report the file
count, drive the probe loop, and on a resolved stamp convert it; a
successful conversion empties grib-data, makes the stamp servable with
the current time as file time, and, when the previous stamp is not yet
servable, recursively invokes the whole cycle anchored one interval
earlier; a failed conversion reports and stops.  qf bounds the inner
probe loop and fuel bounds the backfill recursion, both only because the
embedding must be total. -/
def run (now : Int) (fetch : Stamp → FetchOut) (conv : Stamp → Bool) (qf : Nat) :
    Nat → Int → HState → List Ev × HState
  | 0, _, st => ([], st)
  | fuel + 1, t, st =>
    match runQuery now fetch (removeOldFiles now st).1 qf t with
    | (tr, .resolved s tm, st2) =>
      if conv s then
        if jsonExists ⟨(s, now) :: st2.json, []⟩ (stampOf (tm - 360)) then
          (Ev.sweep (removeOldFiles now st).2 ::
              Ev.count (countDataFiles (removeOldFiles now st).1) ::
              (tr ++ [Ev.convertOk s]),
            ⟨(s, now) :: st2.json, []⟩)
        else
          (Ev.sweep (removeOldFiles now st).2 ::
              Ev.count (countDataFiles (removeOldFiles now st).1) ::
              (tr ++ [Ev.convertOk s] ++
                (run now fetch conv qf fuel (tm - 360) ⟨(s, now) :: st2.json, []⟩).1),
            (run now fetch conv qf fuel (tm - 360) ⟨(s, now) :: st2.json, []⟩).2)
      else
        (Ev.sweep (removeOldFiles now st).2 ::
            Ev.count (countDataFiles (removeOldFiles now st).1) ::
            (tr ++ [Ev.convertErr s]),
          st2)
    | (tr, _, st2) =>
      (Ev.sweep (removeOldFiles now st).2 ::
          Ev.count (countDataFiles (removeOldFiles now st).1) :: tr,
        st2)

theorem run_succ (now : Int) (fetch : Stamp → FetchOut) (conv : Stamp → Bool)
    (qf fuel : Nat) (t : Int) (st : HState) :
    run now fetch conv qf (fuel + 1) t st =
      match runQuery now fetch (removeOldFiles now st).1 qf t with
      | (tr, .resolved s tm, st2) =>
        if conv s then
          if jsonExists ⟨(s, now) :: st2.json, []⟩ (stampOf (tm - 360)) then
            (Ev.sweep (removeOldFiles now st).2 ::
                Ev.count (countDataFiles (removeOldFiles now st).1) ::
                (tr ++ [Ev.convertOk s]),
              ⟨(s, now) :: st2.json, []⟩)
          else
            (Ev.sweep (removeOldFiles now st).2 ::
                Ev.count (countDataFiles (removeOldFiles now st).1) ::
                (tr ++ [Ev.convertOk s] ++
                  (run now fetch conv qf fuel (tm - 360) ⟨(s, now) :: st2.json, []⟩).1),
              (run now fetch conv qf fuel (tm - 360) ⟨(s, now) :: st2.json, []⟩).2)
        else
          (Ev.sweep (removeOldFiles now st).2 ::
              Ev.count (countDataFiles (removeOldFiles now st).1) ::
              (tr ++ [Ev.convertErr s]),
            st2)
      | (tr, _, st2) =>
        (Ev.sweep (removeOldFiles now st).2 ::
            Ev.count (countDataFiles (removeOldFiles now st).1) :: tr,
          st2) := rfl

/-- The events of k failed probes of the loop, walking backward one
interval per probe from the anchor. -/
def probeEvents (t0 : Int) : Nat → List Ev
  | 0 => []
  | k + 1 =>
    Ev.fetch (stampOf t0) :: Ev.retrieveErr (stampOf t0) ::
      probeEvents (t0 - 360) k

theorem maxAgeMin_nonneg : 0 ≤ maxAgeMin := by
  unfold maxAgeMin
  norm_num

theorem jsonExists_cons (p : Stamp × Int) (rest : List (Stamp × Int))
    (g : List Stamp) (s : Stamp) :
    jsonExists ⟨p :: rest, g⟩ s = (decide (p.1 = s) || jsonExists ⟨rest, g⟩ s) := by
  simp [jsonExists]

/-- A sweep over only fresh files removes nothing. -/
theorem removeOldFiles_fresh (now : Int) (st : HState)
    (h : ∀ p ∈ st.json, now - p.2 ≤ maxAgeMin) :
    removeOldFiles now st = (st, 0) := by
  unfold removeOldFiles
  have h1 : st.json.filter (fun p => !decide (maxAgeMin < now - p.2)) = st.json := by
    rw [List.filter_eq_self]
    intro p hp
    simpa using h p hp
  have h2 : st.json.filter (fun p => decide (maxAgeMin < now - p.2)) = [] := by
    rw [List.filter_eq_nil_iff]
    intro p hp
    simpa using h p hp
  rw [h1, h2]
  rfl

/-- Stamps taken a different number of whole intervals back from the same
anchor differ. -/
theorem stampOf_sub_ne (t : Int) (a b : Nat) (h : a ≠ b) :
    stampOf (t - 360 * a) ≠ stampOf (t - 360 * b) := by
  rw [Ne, stampOf_eq_iff]
  omega

theorem diffDays_self (now : Int) : diffDays now now = 0 := by
  unfold diffDays
  simp

/-- Probe loop, first success within the horizon: every failed probe
moves the cursor back exactly one interval, the first 200 response at a
not-yet-servable stamp writes that raw artifact, resolves, and no older
interval is probed. -/
theorem runQuery_success (now : Int) (fetch : Stamp → FetchOut) (st : HState) :
    ∀ k (t0 : Int) (extra : Nat),
      (∀ i : Nat, i < k → fetchFails (fetch (stampOf (t0 - 360 * i))) = true) →
      fetch (stampOf (t0 - 360 * k)) = .status 200 →
      (∀ i : Nat, i ≤ k → ¬ (30 < diffDays now (t0 - 360 * i))) →
      jsonExists st (stampOf (t0 - 360 * k)) = false →
      runQuery now fetch st (extra + k + 1) t0 =
        (probeEvents t0 k ++
            [Ev.fetch (stampOf (t0 - 360 * k)), Ev.writeRaw (stampOf (t0 - 360 * k))],
          .resolved (stampOf (t0 - 360 * k)) (t0 - 360 * k),
          ⟨st.json, stampOf (t0 - 360 * k) :: st.grib⟩) := by
  intro k
  induction k with
  | zero =>
    intro t0 extra hf hok hhor hnex
    simp only [Nat.cast_zero, mul_zero, sub_zero] at hok hnex ⊢
    have hh0 : ¬ (30 < diffDays now t0) := by
      have := hhor 0 (Nat.le_refl _)
      simpa using this
    rw [Nat.add_zero, runQuery_succ, if_neg hh0, hok]
    simp [hnex, probeEvents]
  | succ k ih =>
    intro t0 extra hf hok hhor hnex
    have hh0 : ¬ (30 < diffDays now t0) := by
      have := hhor 0 (by omega)
      simpa using this
    have hf0 : fetchFails (fetch (stampOf t0)) = true := by
      have := hf 0 (Nat.succ_pos _)
      simpa using this
    have hpos : t0 - 360 - 360 * ((k : Nat) : Int) = t0 - 360 * ((k + 1 : Nat) : Int) := by
      omega
    have ihh := ih (t0 - 360) extra
      (fun i hi => by
        have hpi : t0 - 360 - 360 * ((i : Nat) : Int) = t0 - 360 * ((i + 1 : Nat) : Int) := by
          omega
        rw [hpi]
        exact hf (i + 1) (by omega))
      (by rw [hpos]; exact hok)
      (fun i hi => by
        have hpi : t0 - 360 - 360 * ((i : Nat) : Int) = t0 - 360 * ((i + 1 : Nat) : Int) := by
          omega
        rw [hpi]
        exact hhor (i + 1) (by omega))
      (by rw [hpos]; exact hnex)
    rw [hpos] at ihh
    rw [runQuery_succ, if_neg hh0]
    rcases hc : fetch (stampOf t0) with _ | code
    · simp only [hc]
      rw [show extra + (k + 1) = extra + k + 1 from rfl, ihh]
      simp [probeEvents]
    · have hcode : code ≠ 200 := by
        rw [hc] at hf0
        simpa [fetchFails] using hf0
      simp only [hc]
      rw [if_neg hcode]
      rw [show extra + (k + 1) = extra + k + 1 from rfl, ihh]
      simp [probeEvents]

/-- Probe loop, horizon exhausted: when every probe within the horizon
fails and the cursor first falls more than 30 whole days before now, the
loop reports the horizon message and stops with the state unchanged. -/
theorem runQuery_exhaust (now : Int) (fetch : Stamp → FetchOut) (st : HState) :
    ∀ k (t0 : Int) (extra : Nat),
      (∀ i : Nat, i < k → fetchFails (fetch (stampOf (t0 - 360 * i))) = true) →
      (∀ i : Nat, i < k → ¬ (30 < diffDays now (t0 - 360 * i))) →
      (30 < diffDays now (t0 - 360 * k)) →
      runQuery now fetch st (extra + k + 1) t0 =
        (probeEvents t0 k ++ [Ev.horizon], .horizon, st) := by
  intro k
  induction k with
  | zero =>
    intro t0 extra _ _ hstop
    simp only [Nat.cast_zero, mul_zero, sub_zero] at hstop
    rw [Nat.add_zero, runQuery_succ, if_pos hstop]
    simp [probeEvents]
  | succ k ih =>
    intro t0 extra hf hhor hstop
    have hh0 : ¬ (30 < diffDays now t0) := by
      have := hhor 0 (by omega)
      simpa using this
    have hf0 : fetchFails (fetch (stampOf t0)) = true := by
      have := hf 0 (Nat.succ_pos _)
      simpa using this
    have hpos : t0 - 360 - 360 * ((k : Nat) : Int) = t0 - 360 * ((k + 1 : Nat) : Int) := by
      omega
    have ihh := ih (t0 - 360) extra
      (fun i hi => by
        have hpi : t0 - 360 - 360 * ((i : Nat) : Int) = t0 - 360 * ((i + 1 : Nat) : Int) := by
          omega
        rw [hpi]
        exact hf (i + 1) (by omega))
      (fun i hi => by
        have hpi : t0 - 360 - 360 * ((i : Nat) : Int) = t0 - 360 * ((i + 1 : Nat) : Int) := by
          omega
        rw [hpi]
        exact hhor (i + 1) (by omega))
      (by rw [hpos]; exact hstop)
    rw [runQuery_succ, if_neg hh0]
    rcases hc : fetch (stampOf t0) with _ | code
    · simp only [hc]
      rw [show extra + (k + 1) = extra + k + 1 from rfl, ihh]
      simp [probeEvents]
    · have hcode : code ≠ 200 := by
        rw [hc] at hf0
        simpa [fetchFails] using hf0
      simp only [hc]
      rw [if_neg hcode]
      rw [show extra + (k + 1) = extra + k + 1 from rfl, ihh]
      simp [probeEvents]

/-- A retrieval collaborator that always answers 200. -/
def fetch200 : Stamp → FetchOut := fun _ => .status 200

/-- A retrieval collaborator that always fails at the transport. -/
def fetchFailAll : Stamp → FetchOut := fun _ => .transportErr

/-- The mock of the spec: retrieval fails for the two most recent
intervals of anchor 144000 and succeeds on the third, stamp of 143280. -/
def fetchThird : Stamp → FetchOut :=
  fun s => if s = stampOf 143280 then .status 200 else .transportErr

/-- A conversion collaborator that always succeeds. -/
def convTrue : Stamp → Bool := fun _ => true

/-- A conversion collaborator that always fails. -/
def convFalse : Stamp → Bool := fun _ => false

/-- Claim C4: in the probe-and-fetch loop, every transport error or
non-200 response moves the cursor back exactly one interval and the loop
repeats; the loop stops with the horizon message when the cursor first
falls more than 30 whole days before now; and the first 200 response at a
not-yet-servable stamp within the horizon makes the engine write exactly
that raw artifact and resolve without probing any older interval, after
which the cycle converts exactly that stamp.  The probed cursors are
visible in the event list as positions anchor minus one interval per
failed probe. -/
theorem claim_C4_probe_loop :
    (∀ (now : Int) (fetch : Stamp → FetchOut) (st : HState) (k : Nat) (t0 : Int)
      (extra : Nat),
      (∀ i : Nat, i < k → fetchFails (fetch (stampOf (t0 - 360 * i))) = true) →
      fetch (stampOf (t0 - 360 * k)) = .status 200 →
      (∀ i : Nat, i ≤ k → ¬ (30 < diffDays now (t0 - 360 * i))) →
      jsonExists st (stampOf (t0 - 360 * k)) = false →
      runQuery now fetch st (extra + k + 1) t0 =
        (probeEvents t0 k ++
            [Ev.fetch (stampOf (t0 - 360 * k)), Ev.writeRaw (stampOf (t0 - 360 * k))],
          .resolved (stampOf (t0 - 360 * k)) (t0 - 360 * k),
          ⟨st.json, stampOf (t0 - 360 * k) :: st.grib⟩)) ∧
    (∀ (now : Int) (fetch : Stamp → FetchOut) (st : HState) (k : Nat) (t0 : Int)
      (extra : Nat),
      (∀ i : Nat, i < k → fetchFails (fetch (stampOf (t0 - 360 * i))) = true) →
      (∀ i : Nat, i < k → ¬ (30 < diffDays now (t0 - 360 * i))) →
      (30 < diffDays now (t0 - 360 * k)) →
      runQuery now fetch st (extra + k + 1) t0 =
        (probeEvents t0 k ++ [Ev.horizon], .horizon, st)) ∧
    (∀ (now : Int) (fetch : Stamp → FetchOut) (conv : Stamp → Bool) (st : HState)
      (k : Nat) (t0 : Int) (extra fuel : Nat),
      (∀ i : Nat, i < k → fetchFails (fetch (stampOf (t0 - 360 * i))) = true) →
      fetch (stampOf (t0 - 360 * k)) = .status 200 →
      (∀ i : Nat, i ≤ k → ¬ (30 < diffDays now (t0 - 360 * i))) →
      jsonExists (removeOldFiles now st).1 (stampOf (t0 - 360 * k)) = false →
      conv (stampOf (t0 - 360 * k)) = true →
      jsonExists ⟨(stampOf (t0 - 360 * k), now) :: (removeOldFiles now st).1.json, []⟩
        (stampOf (t0 - 360 * k - 360)) = true →
      run now fetch conv (extra + k + 1) (fuel + 1) t0 st =
        (Ev.sweep (removeOldFiles now st).2 ::
            Ev.count (countDataFiles (removeOldFiles now st).1) ::
            (probeEvents t0 k ++
              [Ev.fetch (stampOf (t0 - 360 * k)), Ev.writeRaw (stampOf (t0 - 360 * k)),
                Ev.convertOk (stampOf (t0 - 360 * k))]),
          ⟨(stampOf (t0 - 360 * k), now) :: (removeOldFiles now st).1.json, []⟩)) := by
  refine ⟨?_, ?_, ?_⟩
  · intro now fetch st k t0 extra hf hok hhor hnex
    exact runQuery_success now fetch st k t0 extra hf hok hhor hnex
  · intro now fetch st k t0 extra hf hhor hstop
    exact runQuery_exhaust now fetch st k t0 extra hf hhor hstop
  · intro now fetch conv st k t0 extra fuel hf hok hhor hnex hconv hprev
    rw [run_succ,
      runQuery_success now fetch (removeOldFiles now st).1 k t0 extra hf hok hhor hnex]
    simp only [hconv, hprev, if_true]
    simp [List.append_assoc]

/-- Witness for claim C4: the spec mock (two failures then success at the
third interval) for the success part and the conversion part, and the
always-failing transport for the horizon part, which stops at probe 124,
the first cursor more than 30 whole days old. -/
theorem claim_C4_witness :
    runQuery 144000 fetchThird ⟨[], []⟩ (0 + 2 + 1) 144000 =
      (probeEvents 144000 2 ++
          [Ev.fetch (stampOf (144000 - 360 * (2 : Nat))),
            Ev.writeRaw (stampOf (144000 - 360 * (2 : Nat)))],
        .resolved (stampOf (144000 - 360 * (2 : Nat))) (144000 - 360 * (2 : Nat)),
        ⟨[], [stampOf (144000 - 360 * (2 : Nat))]⟩) ∧
    runQuery 144000 fetchFailAll ⟨[], []⟩ (0 + 124 + 1) 144000 =
      (probeEvents 144000 124 ++ [Ev.horizon], .horizon, ⟨[], []⟩) ∧
    run 144000 fetchThird convTrue (0 + 2 + 1) (0 + 1) 144000
        ⟨[(stampOf 142920, 144000)], []⟩ =
      (Ev.sweep (removeOldFiles 144000 ⟨[(stampOf 142920, 144000)], []⟩).2 ::
          Ev.count (countDataFiles
            (removeOldFiles 144000 ⟨[(stampOf 142920, 144000)], []⟩).1) ::
          (probeEvents 144000 2 ++
            [Ev.fetch (stampOf (144000 - 360 * (2 : Nat))),
              Ev.writeRaw (stampOf (144000 - 360 * (2 : Nat))),
              Ev.convertOk (stampOf (144000 - 360 * (2 : Nat)))]),
        ⟨(stampOf (144000 - 360 * (2 : Nat)), 144000) ::
            (removeOldFiles 144000 ⟨[(stampOf 142920, 144000)], []⟩).1.json, []⟩) := by
  refine ⟨?_, ?_, ?_⟩
  · exact claim_C4_probe_loop.1 144000 fetchThird ⟨[], []⟩ 2 144000 0
      (by decide) (by decide) (by decide) (by decide)
  · exact claim_C4_probe_loop.2.1 144000 fetchFailAll ⟨[], []⟩ 124 144000 0
      (by decide) (by decide) (by decide)
  · exact claim_C4_probe_loop.2.2 144000 fetchThird convTrue
      ⟨[(stampOf 142920, 144000)], []⟩ 2 144000 0 0
      (by decide) (by decide) (by decide) (by decide) (by decide) (by decide)

/-- Claim C3 counterexample.  The store already holds a servable artifact
for the stamp of now (as after a first successful harvest for the same
now), the feed answers 200, and yet the event trace of a second engine
invocation contains the retrieval request for that stamp: the existence
check of the source runs only inside the response callback, after the
request has been issued, so the second call does perform an additional
fetch, contradicting the claim that the existence check happens before
the retrieval call is issued. -/
theorem claim_C3_counterexample :
    Ev.fetch (stampOf 144000) ∈
      (run 144000 fetch200 convTrue 5 1 144000 ⟨[(stampOf 144000, 144000)], []⟩).1 := by
  decide

/-- Claim C3 (amended): when a servable artifact already exists for the
stamp of now and survives the sweep, a second engine invocation for the
same now still issues the retrieval call, but after the 200 response it
finds the artifact present and resolves with no stamp: no additional raw
write and no additional conversion happen, and the store is left exactly
as the sweep left it. -/
theorem claim_C3_skip_existing (now : Int) (fetch : Stamp → FetchOut)
    (conv : Stamp → Bool) (qf fuel : Nat) (st : HState)
    (hex : jsonExists (removeOldFiles now st).1 (stampOf now) = true)
    (hfe : fetch (stampOf now) = .status 200) :
    run now fetch conv (qf + 1) (fuel + 1) now st =
      ([Ev.sweep (removeOldFiles now st).2,
        Ev.count (countDataFiles (removeOldFiles now st).1),
        Ev.fetch (stampOf now), Ev.skipExisting (stampOf now)],
       (removeOldFiles now st).1) := by
  have hh0 : ¬ (30 < diffDays now now) := by
    rw [diffDays_self]
    omega
  have hq : runQuery now fetch (removeOldFiles now st).1 (qf + 1) now =
      ([Ev.fetch (stampOf now), Ev.skipExisting (stampOf now)], .skipped,
        (removeOldFiles now st).1) := by
    rw [runQuery_succ, if_neg hh0, hfe]
    simp [hex]
  rw [run_succ, hq]

/-- Witness for claim C3: the concrete second invocation with the
artifact of stamp of now already present and fresh. -/
theorem claim_C3_witness :
    run 144000 fetch200 convTrue (4 + 1) (0 + 1) 144000
        ⟨[(stampOf 144000, 144000)], []⟩ =
      ([Ev.sweep (removeOldFiles 144000 ⟨[(stampOf 144000, 144000)], []⟩).2,
        Ev.count (countDataFiles
          (removeOldFiles 144000 ⟨[(stampOf 144000, 144000)], []⟩).1),
        Ev.fetch (stampOf 144000), Ev.skipExisting (stampOf 144000)],
       (removeOldFiles 144000 ⟨[(stampOf 144000, 144000)], []⟩).1) := by
  exact claim_C3_skip_existing 144000 fetch200 convTrue 4 0
    ⟨[(stampOf 144000, 144000)], []⟩ (by decide) (by decide)

/-- Claim C7: a retention sweep keeps exactly the artifacts whose age does
not exceed maxAge and deletes exactly those whose age exceeds it; the
reported deletion count equals the number of qualifying artifacts; and
every harvest cycle reports, right after the sweep, first the deletion
count and then the current total artifact count of the swept store. -/
theorem claim_C7_retention :
    (∀ (now : Int) (st : HState) (p : Stamp × Int),
      p ∈ (removeOldFiles now st).1.json ↔ p ∈ st.json ∧ now - p.2 ≤ maxAgeMin) ∧
    (∀ (now : Int) (st : HState),
      (removeOldFiles now st).2 =
        st.json.countP (fun p => decide (maxAgeMin < now - p.2))) ∧
    (∀ (now : Int) (fetch : Stamp → FetchOut) (conv : Stamp → Bool)
      (qf fuel : Nat) (t : Int) (st : HState),
      (run now fetch conv qf (fuel + 1) t st).1.take 2 =
        [Ev.sweep (removeOldFiles now st).2,
         Ev.count (countDataFiles (removeOldFiles now st).1)]) := by
  refine ⟨?_, ?_, ?_⟩
  · intro now st p
    simp only [removeOldFiles, List.mem_filter]
    constructor
    · rintro ⟨h1, h2⟩
      refine ⟨h1, ?_⟩
      simpa using h2
    · rintro ⟨h1, h2⟩
      refine ⟨h1, ?_⟩
      simpa using h2
  · intro now st
    simp [removeOldFiles, List.countP_eq_length_filter]
  · intro now fetch conv qf fuel t st
    rw [run_succ]
    rcases hq : runQuery now fetch (removeOldFiles now st).1 qf t with ⟨tr, q, st2⟩
    cases q
    · (repeat' split) <;> simp
    · simp
    · simp
    · simp

/-- The events of a successful backfill chain of conversions starting at
the anchor: each level sweeps nothing (the chain is fresh), counts the
artifacts present so far, probes once, writes, converts, and recurses one
interval earlier. -/
def backfillTrace (t0 : Int) (n0 : Nat) : Nat → List Ev
  | 0 => []
  | k + 1 =>
    Ev.sweep 0 :: Ev.count n0 :: Ev.fetch (stampOf t0) ::
      Ev.writeRaw (stampOf t0) :: Ev.convertOk (stampOf t0) ::
      backfillTrace (t0 - 360) (n0 + 1) k

/-- The servable artifacts written by a backfill chain of conversions
starting at the anchor, each with file time now; the deepest level comes
first because every conversion prepends its artifact. -/
def convertedChain (now t0 : Int) : Nat → List (Stamp × Int)
  | 0 => []
  | k + 1 => convertedChain now (t0 - 360) k ++ [(stampOf t0, now)]

/-- Backfill chain: when retrieval and conversion always succeed, the
store is fresh, the stamps of the anchor and the next k intervals back
are absent and the one after that is present, one cycle converts exactly
those k+1 stamps in order and stops at the first existing stamp. -/
theorem run_backfill_chain (now : Int) (fetch : Stamp → FetchOut) (conv : Stamp → Bool)
    (qf : Nat) (hfa : ∀ s, fetch s = .status 200) (hca : ∀ s, conv s = true) :
    ∀ (k : Nat) (t0 : Int) (st : HState) (extra : Nat),
      (∀ p ∈ st.json, now - p.2 ≤ maxAgeMin) →
      (∀ i : Nat, i < k + 1 → jsonExists st (stampOf (t0 - 360 * i)) = false) →
      jsonExists st (stampOf (t0 - 360 * (k + 1 : Nat))) = true →
      (∀ i : Nat, i < k + 1 → ¬ (30 < diffDays now (t0 - 360 * i))) →
      run now fetch conv (qf + 1) (extra + (k + 1)) t0 st =
        (backfillTrace t0 st.json.length (k + 1),
          ⟨convertedChain now t0 (k + 1) ++ st.json, []⟩) := by
  intro k
  induction k with
  | zero =>
    intro t0 st extra hfresh hne hex hhor
    have hne0 : jsonExists st (stampOf t0) = false := by
      simpa using hne 0 (by omega)
    have hh0 : ¬ (30 < diffDays now t0) := by
      simpa using hhor 0 (by omega)
    have hex1 : jsonExists st (stampOf (t0 - 360)) = true := by
      simpa using hex
    have hsw := removeOldFiles_fresh now st hfresh
    have hq : runQuery now fetch st (qf + 1) t0 =
        ([Ev.fetch (stampOf t0), Ev.writeRaw (stampOf t0)],
          .resolved (stampOf t0) t0, ⟨st.json, stampOf t0 :: st.grib⟩) := by
      rw [runQuery_succ, if_neg hh0, hfa (stampOf t0)]
      simp [hne0]
    have hprev : jsonExists ⟨(stampOf t0, now) :: st.json, []⟩ (stampOf (t0 - 360)) = true := by
      simp only [jsonExists, List.any_cons] at hex1 ⊢
      rw [hex1]
      simp
    rw [show extra + (0 + 1) = extra + 1 from rfl, run_succ]
    simp only [hsw, hq, hca, hprev, if_true]
    simp [backfillTrace, convertedChain, countDataFiles]
  | succ k ih =>
    intro t0 st extra hfresh hne hex hhor
    have hne0 : jsonExists st (stampOf t0) = false := by
      simpa using hne 0 (by omega)
    have hh0 : ¬ (30 < diffDays now t0) := by
      simpa using hhor 0 (by omega)
    have hsw := removeOldFiles_fresh now st hfresh
    have hq : runQuery now fetch st (qf + 1) t0 =
        ([Ev.fetch (stampOf t0), Ev.writeRaw (stampOf t0)],
          .resolved (stampOf t0) t0, ⟨st.json, stampOf t0 :: st.grib⟩) := by
      rw [runQuery_succ, if_neg hh0, hfa (stampOf t0)]
      simp [hne0]
    have hne01 : stampOf t0 ≠ stampOf (t0 - 360) := by
      have h := stampOf_sub_ne t0 0 1 (by omega)
      simpa using h
    have hne1 : jsonExists st (stampOf (t0 - 360)) = false := by
      simpa using hne 1 (by omega)
    have hprev : jsonExists ⟨(stampOf t0, now) :: st.json, []⟩ (stampOf (t0 - 360)) = false := by
      simp only [jsonExists, List.any_cons] at hne1 ⊢
      rw [hne1]
      simp [hne01]
    have hfresh3 : ∀ p ∈ HState.json ⟨(stampOf t0, now) :: st.json, []⟩,
        now - p.2 ≤ maxAgeMin := by
      intro p hp
      rcases List.mem_cons.mp hp with h | h
      · rw [h]
        have := maxAgeMin_nonneg
        simp
        omega
      · exact hfresh p h
    have hne3 : ∀ i : Nat, i < k + 1 →
        jsonExists ⟨(stampOf t0, now) :: st.json, []⟩
          (stampOf (t0 - 360 - 360 * i)) = false := by
      intro i hi
      have hpi : t0 - 360 - 360 * (i : Int) = t0 - 360 * ((i + 1 : Nat) : Int) := by
        push_cast
        ring
      rw [hpi]
      have hnei : stampOf t0 ≠ stampOf (t0 - 360 * ((i + 1 : Nat) : Int)) := by
        have h := stampOf_sub_ne t0 0 (i + 1) (by omega)
        simpa using h
      have hb : jsonExists st (stampOf (t0 - 360 * ((i + 1 : Nat) : Int))) = false :=
        hne (i + 1) (by omega)
      simp only [jsonExists, List.any_cons] at hb ⊢
      rw [hb]
      simp
      simpa using hnei
    have hex3 : jsonExists ⟨(stampOf t0, now) :: st.json, []⟩
        (stampOf (t0 - 360 - 360 * (k + 1 : Nat))) = true := by
      have hpk : t0 - 360 - 360 * ((k + 1 : Nat) : Int)
          = t0 - 360 * ((k + 1 + 1 : Nat) : Int) := by
        push_cast
        ring
      rw [hpk]
      simp only [jsonExists, List.any_cons] at hex ⊢
      rw [hex]
      simp
    have hhor3 : ∀ i : Nat, i < k + 1 →
        ¬ (30 < diffDays now (t0 - 360 - 360 * i)) := by
      intro i hi
      have hpi : t0 - 360 - 360 * (i : Int) = t0 - 360 * ((i + 1 : Nat) : Int) := by
        push_cast
        ring
      rw [hpi]
      exact hhor (i + 1) (by omega)
    have hr := ih (t0 - 360) ⟨(stampOf t0, now) :: st.json, []⟩ extra
      hfresh3 hne3 hex3 hhor3
    rw [show extra + (k + 1 + 1) = (extra + (k + 1)) + 1 from rfl, run_succ]
    simp only [hsw, hq, hca, hprev, if_true, Bool.false_eq_true, if_false]
    rw [hr]
    simp [backfillTrace, convertedChain, countDataFiles, List.append_assoc]

/-- Claim C5: after every successful conversion at a cursor the engine
computes the previous grid point, cursor minus one interval; while no
servable artifact exists there it recursively invokes the whole harvest
cycle anchored at that point, converting one stamp per level, and it
stops at the first level whose previous stamp already exists (the chain
part); and on a conversion failure it reports the error and stops: the
trace ends at the conversion error, conversion is not retried, no
backfill recursion is entered, the store keeps no new servable artifact
and the raw artifact stays in place. -/
theorem claim_C5_convert_backfill :
    (∀ (now : Int) (fetch : Stamp → FetchOut) (conv : Stamp → Bool) (qf : Nat),
      (∀ s, fetch s = .status 200) → (∀ s, conv s = true) →
      ∀ (k : Nat) (t0 : Int) (st : HState) (extra : Nat),
        (∀ p ∈ st.json, now - p.2 ≤ maxAgeMin) →
        (∀ i : Nat, i < k + 1 → jsonExists st (stampOf (t0 - 360 * i)) = false) →
        jsonExists st (stampOf (t0 - 360 * (k + 1 : Nat))) = true →
        (∀ i : Nat, i < k + 1 → ¬ (30 < diffDays now (t0 - 360 * i))) →
        run now fetch conv (qf + 1) (extra + (k + 1)) t0 st =
          (backfillTrace t0 st.json.length (k + 1),
            ⟨convertedChain now t0 (k + 1) ++ st.json, []⟩)) ∧
    (∀ (now : Int) (fetch : Stamp → FetchOut) (conv : Stamp → Bool) (qf fuel : Nat)
      (t0 : Int) (st : HState),
      ¬ (30 < diffDays now t0) →
      fetch (stampOf t0) = .status 200 →
      jsonExists (removeOldFiles now st).1 (stampOf t0) = false →
      conv (stampOf t0) = false →
      run now fetch conv (qf + 1) (fuel + 1) t0 st =
        ([Ev.sweep (removeOldFiles now st).2,
          Ev.count (countDataFiles (removeOldFiles now st).1),
          Ev.fetch (stampOf t0), Ev.writeRaw (stampOf t0), Ev.convertErr (stampOf t0)],
         ⟨(removeOldFiles now st).1.json, stampOf t0 :: (removeOldFiles now st).1.grib⟩)) := by
  constructor
  · intro now fetch conv qf hfa hca k t0 st extra hfresh hne hex hhor
    exact run_backfill_chain now fetch conv qf hfa hca k t0 st extra hfresh hne hex hhor
  · intro now fetch conv qf fuel t0 st hh0 hfe hnex hconv
    have hq : runQuery now fetch (removeOldFiles now st).1 (qf + 1) t0 =
        ([Ev.fetch (stampOf t0), Ev.writeRaw (stampOf t0)],
          .resolved (stampOf t0) t0,
          ⟨(removeOldFiles now st).1.json, stampOf t0 :: (removeOldFiles now st).1.grib⟩) := by
      rw [runQuery_succ, if_neg hh0, hfe]
      simp [hnex]
    rw [run_succ]
    simp only [hq, hconv, Bool.false_eq_true, if_false]
    simp

/-- Witness for claim C5: a chain of two conversions down to an existing
stamp, and a conversion failure that stops the cycle. -/
theorem claim_C5_witness :
    run 144000 fetch200 convTrue (0 + 1) (0 + (1 + 1)) 144000
        ⟨[(stampOf 143280, 143000)], []⟩ =
      (backfillTrace 144000 (HState.json ⟨[(stampOf 143280, 143000)], []⟩).length (1 + 1),
        ⟨convertedChain 144000 144000 (1 + 1) ++ [(stampOf 143280, 143000)], []⟩) ∧
    run 144000 fetch200 convFalse (0 + 1) (0 + 1) 144000 ⟨[], []⟩ =
      ([Ev.sweep (removeOldFiles 144000 ⟨[], []⟩).2,
        Ev.count (countDataFiles (removeOldFiles 144000 ⟨[], []⟩).1),
        Ev.fetch (stampOf 144000), Ev.writeRaw (stampOf 144000),
        Ev.convertErr (stampOf 144000)],
       ⟨(removeOldFiles 144000 ⟨[], []⟩).1.json,
         stampOf 144000 :: (removeOldFiles 144000 ⟨[], []⟩).1.grib⟩) := by
  constructor
  · exact claim_C5_convert_backfill.1 144000 fetch200 convTrue 0
      (fun s => rfl) (fun s => rfl) 1 144000 ⟨[(stampOf 143280, 143000)], []⟩ 0
      (by decide) (by decide) (by decide) (by decide)
  · exact claim_C5_convert_backfill.2 144000 fetch200 convFalse 0 0 144000 ⟨[], []⟩
      (by decide) (by decide) (by decide) (by decide)

end Windserver
